import Mathlib

/-!
Verification of the TodayEcho plugin (src/TodayEcho/todayecho_echo/__init__.py).

Shallow embedding notes:
* Python float stat values are modelled as `Rat`.  The claims only compare
  values drawn from a single configured list with one another (equality with
  the list maximum), and distinct decimal literals at the precision used in
  the config map to distinct floats in the same order, so rationals are a
  faithful model.
* Randomness is modelled by explicit streams `Nat → Nat`: `random.sample`
  consumes one stream (each draw removes the chosen element from the pool,
  i.e. sampling without replacement), `random.choice` another.
* The ledger file of one user is a JSON document `date ↦ (userId ↦ rolls)`;
  it is modelled as an insertion-ordered association list with Python-dict
  `get`/set semantics (`dictGetD`, `dictSet`).
* Side effects of the command handler (what `save_records` wrote, which
  abstract steps ran in which order) are returned explicitly: `saved = none`
  means `save_records` was never called.  Fallible external collaborators
  (drawing one result card, the final compose/convert/send sequence) are
  modelled by oracles `cardOk : Nat → Bool` and `finalOk : Bool`; the
  `try/except` at the handler boundary is modelled by the `errorLogged`
  outcome (the handler is total, it never propagates the exception).
* `config["settings"]["stats_count"]` is read without a default and the code
  is only meaningful for non-negative counts, so it is a `Nat`;
  `daily_limit` is read with `.get(...)` defaults (20 in the roll command,
  6 in the history command), so it is an `Option Int`; `white_list` is read
  with default `[]`, so the field holds the already-defaulted list.
-/

namespace TodayEcho

/-- `StatDefinition`: one entry of `config["substats"]`. -/
structure StatDefinition where
  name : String
  icon : String
  values : List Rat
  is_percent : Bool
deriving DecidableEq, Repr

/-- The `settings` object of the config file. -/
structure Settings where
  daily_limit : Option Int
  white_list : List String
  stats_count : Nat
deriving DecidableEq, Repr

/-- The configuration returned by `load_config`. -/
structure Config where
  substats : List StatDefinition
  settings : Settings
deriving DecidableEq, Repr

/-- The `PhantomStat` class (one rolled substat). -/
structure PhantomStat where
  name : String
  icon : String
  value : Rat
  is_percent : Bool
  is_max : Bool
deriving DecidableEq, Repr

/-- Python `max(values)` on a nonempty list; the `0` for `[]` is junk
(Python raises there, and every use site has a nonempty list). -/
def pymax : List Rat → Rat
  | [] => 0
  | x :: xs => xs.foldl max x

/-- Python `random.choice(values)`: a uniformly random index into the list,
modelled by reducing the stream value `j` mod the length.  The default `0`
for an empty list is junk (Python raises there). -/
def pychoice (l : List Rat) (j : Nat) : Rat :=
  l.getD (j % l.length) 0

/-- Body of the loop in `generate_phantom_stats`: build one `PhantomStat`
from a chosen definition (`value = random.choice(values)`;
`is_max = (value == max(values))`). -/
def rollStat (sc : StatDefinition) (j : Nat) : PhantomStat :=
  let value := pychoice sc.values j
  { name := sc.name
    icon := sc.icon
    value := value
    is_percent := sc.is_percent
    is_max := decide (value = pymax sc.values) }

/-- `random.sample(pool, n)` modelled as n draws without replacement: at step
`k` the stream picks index `r k % pool.length` and that element is removed
from the pool before the next draw. -/
def sampleAux {α : Type} (r : Nat → Nat) : Nat → List α → Nat → List α
  | _, _, 0 => []
  | k, pool, Nat.succ n =>
    if hp : 0 < pool.length then
      pool.get ⟨r k % pool.length, Nat.mod_lt _ hp⟩ ::
        sampleAux r (k + 1) (pool.eraseIdx (r k % pool.length)) n
    else []

/-- `random.sample(pool, n)` with randomness stream `r`. -/
def sample {α : Type} (pool : List α) (n : Nat) (r : Nat → Nat) : List α :=
  sampleAux r 0 pool n

/-- `generate_phantom_stats(config)`: sample
`min(stats_count, len(substats))` definitions without replacement, then roll
one value for each.  `r` drives `random.sample`, `rv` drives the successive
`random.choice` calls (indexed by position in the selected list). -/
def generate_phantom_stats (config : Config) (r rv : Nat → Nat) : List PhantomStat :=
  let substats := config.substats
  let num_to_sample := min config.settings.stats_count substats.length
  let selected := sample substats num_to_sample r
  selected.enum.map (fun p => rollStat p.2 (rv p.1))

/-- One roll record as stored in the ledger (`[s.to_dict() for s in stats]`;
`to_dict`/`from_dict` are inverse field-by-field copies, so the stored dict
is identified with the `PhantomStat` itself). -/
abbrev RollRecord := List PhantomStat

/-- The value of one date key of a user's ledger file: `userId ↦ rolls`. -/
abbrev DayRecords := List (String × List RollRecord)

/-- A whole per-user ledger document: `date ↦ DayRecords`. -/
abbrev Store := List (String × DayRecords)

instance : DecidableEq DayRecords := inferInstance

instance : DecidableEq Store := fun a b =>
  @instDecidableEqList _ (fun x y => instDecidableEqProd x y) a b

/-- Python `d.get(k, v)` on an insertion-ordered dict. -/
def dictGetD {β : Type} (d : List (String × β)) (k : String) (v : β) : β :=
  match d.find? (fun p => p.1 == k) with
  | some p => p.2
  | none => v

/-- Python `d[k] = v` on an insertion-ordered dict: overwrite in place if the
key exists, else append. -/
def dictSet {β : Type} (d : List (String × β)) (k : String) (v : β) :
    List (String × β) :=
  if d.any (fun p => p.1 == k) then
    d.map (fun p => if p.1 == k then (k, v) else p)
  else d ++ [(k, v)]

/-- Python substring test `sub in s` (on the character list of the text). -/
def strIn (sub : List Char) : List Char → Bool
  | [] => sub.isEmpty
  | c :: rest => sub.isPrefixOf (c :: rest) || strIn sub rest

/-- Python `s.replace(pat, repl)`: replace non-overlapping occurrences left
to right, never rescanning a replacement.  Fuel-driven so that it is
structurally recursive; `pyReplace` supplies fuel `s.length`, which is
enough because every step consumes at least one character.  (Python's
special behaviour for an empty pattern is not modelled; every pattern in
`cn_num_map` is nonempty.) -/
def pyReplaceAux (pat repl : List Char) : Nat → List Char → List Char
  | _, [] => []
  | 0, s => s
  | fuel + 1, c :: rest =>
    if pat.isPrefixOf (c :: rest) ∧ pat ≠ [] then
      repl ++ pyReplaceAux pat repl fuel (rest.drop (pat.length - 1))
    else c :: pyReplaceAux pat repl fuel rest

/-- Python `s.replace(pat, repl)`. -/
def pyReplace (s pat repl : List Char) : List Char :=
  pyReplaceAux pat repl s.length s

/-- The `cn_num_map` dict literal, in its Python 3.7+ insertion order (the
order `for key, value in cn_num_map.items()` iterates). -/
def cn_num_map : List (List Char × List Char) := [
  ("零".data, "0".data), ("一".data, "1".data), ("二".data, "2".data),
  ("三".data, "3".data), ("四".data, "4".data), ("五".data, "5".data),
  ("六".data, "6".data), ("七".data, "7".data), ("八".data, "8".data),
  ("九".data, "9".data), ("十".data, "10".data),
  ("十一".data, "11".data), ("十二".data, "12".data), ("十三".data, "13".data),
  ("十四".data, "14".data), ("十五".data, "15".data), ("十六".data, "16".data),
  ("十七".data, "17".data), ("十八".data, "18".data), ("十九".data, "19".data),
  ("二十".data, "20".data),
  ("两".data, "2".data), ("俩".data, "2".data),
  ("①".data, "1".data), ("②".data, "2".data), ("③".data, "3".data),
  ("④".data, "4".data), ("⑤".data, "5".data), ("⑥".data, "6".data),
  ("⑦".data, "7".data), ("⑧".data, "8".data), ("⑨".data, "9".data),
  ("⑩".data, "10".data)]

/-- The numeral-word substitution loop
(`for key, value in cn_num_map.items(): ev.text = ev.text.replace(...)`). -/
def applySubst (t : List Char) : List Char :=
  cn_num_map.foldl (fun s p => pyReplace s p.1 p.2) t

/-- `re.search(r'(\d+)', text)`: the leftmost maximal run of decimal digits,
if any.  (`Char.isDigit` is ASCII `0`-`9`; the digits produced by the
substitution pass are all ASCII.) -/
def firstDigitRun : List Char → Option (List Char)
  | [] => none
  | c :: rest =>
    if c.isDigit then some (c :: rest.takeWhile Char.isDigit)
    else firstDigitRun rest

/-- `int(...)` on a nonempty ASCII digit string. -/
def digitsToNat (ds : List Char) : Nat :=
  ds.foldl (fun a c => 10 * a + (c.toNat - 48)) 0

/-- The roll-count parse in `gacha_phantom_command`:
`roll_count = int(match.group(1)) if match and int(match.group(1)) > 0 else 1`
after the numeral-word substitution pass. -/
def parse_roll_count (text : List Char) : Nat :=
  match firstDigitRun (applySubst text) with
  | none => 1
  | some ds => if 0 < digitsToNat ds then digitsToNat ds else 1

/-- Outcome of one invocation of the roll command, as far as the user can
observe it. `insufficient rem` is the `你的调谐器不足！剩余调谐器 {rem*50}！`
reply (it carries `rolls_remaining`; the message displays `rem * 50`, the
tuner cost of a roll being 50). `errorLogged` is the `except` branch:
exception caught at the handler boundary and logged. -/
inductive RollOutcome
  | ignored
  | quotaExhausted
  | insufficient (rolls_remaining : Int)
  | success (records : List RollRecord)
  | errorLogged
deriving DecidableEq, Repr

/-- Abstract effects of the roll command body, in execution order:
`gen i` = the i-th `generate_phantom_stats` call, `renderCard i` = the i-th
`draw_single_result_card` call (attempted), `save` = the `save_records`
call, `send` = the final image reply. -/
inductive Eff
  | gen (i : Nat)
  | renderCard (i : Nat)
  | save
  | send
deriving DecidableEq, Repr

/-- Result of one roll-command invocation: the user-visible outcome, the
document `save_records` wrote (`none` = it was never called), and the
ordered effect trace. -/
structure CmdResult where
  outcome : RollOutcome
  saved : Option Store
  trace : List Eff
deriving DecidableEq, Repr

/-- Result of the `for i in range(roll_count)` loop. -/
structure LoopResult where
  records : List RollRecord
  trace : List Eff
  ok : Bool
deriving DecidableEq, Repr

/-- The generate-and-draw loop: roll `n` times starting at index `i`; each
iteration generates stats, appends them to `new_stats_records`, then draws
that roll's card; a card-draw failure (`cardOk i = false`) raises, ending
the loop with the records generated so far and `ok = false`. -/
def rollLoop (gen : Nat → RollRecord) (cardOk : Nat → Bool) :
    Nat → Nat → LoopResult
  | _, 0 => ⟨[], [], true⟩
  | i, Nat.succ n =>
    if cardOk i then
      let rest := rollLoop gen cardOk (i + 1) n
      ⟨gen i :: rest.records, Eff.gen i :: Eff.renderCard i :: rest.trace,
        rest.ok⟩
    else ⟨[gen i], [Eff.gen i, Eff.renderCard i], false⟩

/-- The `try` block of `gacha_phantom_command` after the quota checks: run
the roll loop; if no card failed, merge the records into today's entry and
`save_records` a document holding only the today key, then compose and send
(which may itself fail after the save, per `finalOk`). -/
def runGachaRolls (config : Config) (records_today : DayRecords)
    (user_id : String) (user_daily : List RollRecord) (today : String)
    (roll_count : Nat) (r rv : Nat → Nat → Nat) (cardOk : Nat → Bool)
    (finalOk : Bool) : CmdResult :=
  let res := rollLoop (fun i => generate_phantom_stats config (r i) (rv i))
    cardOk 0 roll_count
  if res.ok then
    let records_today2 := dictSet records_today user_id
      (user_daily ++ res.records)
    let saved_store : Store := [(today, records_today2)]
    if finalOk then
      ⟨RollOutcome.success res.records, some saved_store,
        res.trace ++ [Eff.save, Eff.send]⟩
    else
      ⟨RollOutcome.errorLogged, some saved_store, res.trace ++ [Eff.save]⟩
  else ⟨RollOutcome.errorLogged, none, res.trace⟩

/-- `gacha_phantom_command(bot, ev)`.  `store` is the current content of the
user's ledger file (`load_records`), `today` is `datetime.now().strftime('%Y-%m-%d')`.
The Python code sets `limit = math.inf` for whitelisted users, so both
quota comparisons (`rolls_remaining <= 0`, `roll_count > rolls_remaining`)
are false for them, here the whitelist branch skips both checks.  The
optional 20%-probability help reply for an absent count has no effect on
ledger state and is not modelled.  Note the handler rebinds
`all_records = {today_str: records_today}` before saving, so the saved
document holds only the today key. -/
def gacha_phantom_command (config : Config) (store : Store) (user_id : String)
    (text : List Char) (today : String) (r rv : Nat → Nat → Nat)
    (cardOk : Nat → Bool) (finalOk : Bool) : CmdResult :=
  if strIn "列表".data text || strIn "结果".data text then
    ⟨RollOutcome.ignored, none, []⟩
  else
    let roll_count := parse_roll_count text
    let records_today := dictGetD store today []
    let user_daily := dictGetD records_today user_id []
    let rolls_done := user_daily.length
    if config.settings.white_list.contains user_id then
      runGachaRolls config records_today user_id user_daily today roll_count
        r rv cardOk finalOk
    else
      let limit : Int := (config.settings.daily_limit).getD 20
      let rolls_remaining : Int := limit - (rolls_done : Int)
      if rolls_remaining ≤ 0 then ⟨RollOutcome.quotaExhausted, none, []⟩
      else if (roll_count : Int) > rolls_remaining then
        ⟨RollOutcome.insufficient rolls_remaining, none, []⟩
      else
        runGachaRolls config records_today user_id user_daily today roll_count
          r rv cardOk finalOk

/-- Outcome of `show_gacha_history`. -/
inductive HistOutcome
  | noRolls
  | shown (records : List RollRecord) (tuners_remaining : Int)
  | errorLogged
deriving DecidableEq, Repr

/-- `show_gacha_history(bot, ev)`: reads today's rolls back and displays
them with `tuners_remaining = limit - len(results)`, where
`limit = config["settings"].get("daily_limit", 6)` — no whitelist check
here, unlike the roll command. -/
def show_gacha_history (config : Config) (store : Store) (user_id : String)
    (today : String) (renderOk : Bool) : HistOutcome :=
  let limit : Int := (config.settings.daily_limit).getD 6
  let user_daily := dictGetD (dictGetD store today []) user_id []
  if user_daily.isEmpty then HistOutcome.noRolls
  else if renderOk then
    HistOutcome.shown user_daily (limit - (user_daily.length : Int))
  else HistOutcome.errorLogged

/-- The spec's ledger invariant: in a persisted per-user document, the
record count stored for a non-whitelisted user under any one day key never
exceeds `dailyLimit` (the roll command's `.get("daily_limit", 20)`). -/
def LedgerInv (config : Config) (store : Store) : Prop :=
  ∀ p ∈ store, ∀ q ∈ p.2,
    config.settings.white_list.contains q.1 = false →
    ((q.2.length : Int) ≤ (config.settings.daily_limit).getD 20)

instance (config : Config) (store : Store) : Decidable (LedgerInv config store) := by
  unfold LedgerInv; infer_instance

/-- The record lists a successful run of the loop produces: roll `n` times
starting at index `i` (spec-side description of the loop's output). -/
def genList (gen : Nat → RollRecord) : Nat → Nat → List RollRecord
  | _, 0 => []
  | i, Nat.succ n => gen i :: genList gen (i + 1) n

/-- The effect trace of a successful run of the loop: generation and
card-drawing strictly interleaved. -/
def interleaveTrace : Nat → Nat → List Eff
  | _, 0 => []
  | i, Nat.succ n =>
    Eff.gen i :: Eff.renderCard i :: interleaveTrace (i + 1) n

/-- Concrete test fixture: the stat rolled from `cfgA`'s single definition
(the only candidate value is its own maximum, hence `is_max = true`). -/
def statA : PhantomStat := ⟨"a", "a", 7, false, true⟩

/-- Concrete test fixture: a one-stat roll record. -/
def recA : RollRecord := [statA]

/-- Concrete test fixture: one substat definition with a single candidate
value, `daily_limit = 20`, whitelist `["w"]`, one stat per roll. -/
def cfgA : Config := ⟨[⟨"a", "a", [7], false⟩], ⟨some 20, ["w"], 1⟩⟩

/-- Concrete test fixture: a ledger document holding one record under a
date other than `"2026-01-02"`. -/
def storeOld : Store := [("2026-01-01", [("u", [recA])])]

/-- Concrete test fixture: the whitelisted user `"w"` with one roll stored
today. -/
def storeA1 : Store := [("2026-01-01", [("w", [recA])])]

/-- Concrete test fixture: the whitelisted user `"w"` with two rolls stored
today. -/
def storeA2 : Store := [("2026-01-01", [("w", [recA, recA])])]

end TodayEcho

namespace TodayEcho

theorem get_cons_eraseIdx_perm {α : Type} :
    ∀ (l : List α) (i : Nat) (h : i < l.length),
      List.Perm (l.get ⟨i, h⟩ :: l.eraseIdx i) l := by
  intro l
  induction l with
  | nil => intro i h; simp at h
  | cons a t ih =>
    intro i h
    cases i with
    | zero => simp
    | succ j =>
      have hj : j < t.length := by simpa using h
      have h1 := ih j hj
      simp only [List.get_cons_succ, List.eraseIdx_cons_succ]
      exact (List.Perm.swap a _ _).trans (h1.cons a)

theorem sampleAux_subperm {α : Type} (r : Nat → Nat) :
    ∀ (n k : Nat) (pool : List α), List.Subperm (sampleAux r k pool n) pool := by
  intro n
  induction n with
  | zero => intro k pool; simp [sampleAux]
  | succ n ih =>
    intro k pool
    by_cases hp : 0 < pool.length
    · rw [sampleAux, dif_pos hp]
      have h1 := ih (k + 1) (pool.eraseIdx (r k % pool.length))
      have h2 := (List.subperm_cons
        (pool.get ⟨r k % pool.length, Nat.mod_lt _ hp⟩)).2 h1
      exact h2.trans (get_cons_eraseIdx_perm pool _ _).subperm
    · rw [sampleAux, dif_neg hp]; simp

theorem sampleAux_length {α : Type} (r : Nat → Nat) :
    ∀ (n k : Nat) (pool : List α), n ≤ pool.length →
      (sampleAux r k pool n).length = n := by
  intro n
  induction n with
  | zero => intro k pool _; rfl
  | succ n ih =>
    intro k pool h
    have hp : 0 < pool.length := Nat.lt_of_lt_of_le (Nat.succ_pos n) h
    have hlen : (pool.eraseIdx (r k % pool.length)).length = pool.length - 1 :=
      List.length_eraseIdx_of_lt (Nat.mod_lt _ hp)
    rw [sampleAux, dif_pos hp, List.length_cons, ih (k + 1) _ (by omega)]

/-- C1: for every config (and every randomness), `generate_phantom_stats`
returns exactly `min(stats_count, |substats|)` stats; they are the rolls of
a chosen list of definitions that is a sub-permutation of the substat table
(drawn without replacement: no list element is used more often than it
occurs, in particular no element is chosen twice). -/
theorem C1_generate_without_replacement (config : Config) (r rv : Nat → Nat) :
    (generate_phantom_stats config r rv).length
        = min config.settings.stats_count config.substats.length ∧
    List.Subperm
      (sample config.substats
        (min config.settings.stats_count config.substats.length) r)
      config.substats ∧
    (sample config.substats
        (min config.settings.stats_count config.substats.length) r).length
        = min config.settings.stats_count config.substats.length ∧
    generate_phantom_stats config r rv
        = (sample config.substats
            (min config.settings.stats_count config.substats.length) r).enum.map
            (fun p => rollStat p.2 (rv p.1)) := by
  have hmin : min config.settings.stats_count config.substats.length
      ≤ config.substats.length := Nat.min_le_right _ _
  have hlen := sampleAux_length r
    (min config.settings.stats_count config.substats.length) 0 config.substats hmin
  refine ⟨?_, sampleAux_subperm r _ 0 config.substats, hlen, rfl⟩
  show ((sample config.substats
      (min config.settings.stats_count config.substats.length) r).enum.map
      (fun p => rollStat p.2 (rv p.1))).length = _
  rw [List.length_map, List.enum_eq_enumFrom, List.enumFrom_length]
  exact hlen

theorem mem_generate_phantom_stats (config : Config) (r rv : Nat → Nat)
    (s : PhantomStat) (h : s ∈ generate_phantom_stats config r rv) :
    ∃ sc ∈ config.substats, ∃ j, s = rollStat sc j := by
  have h2 : s ∈ (sample config.substats
      (min config.settings.stats_count config.substats.length) r).enum.map
      (fun p => rollStat p.2 (rv p.1)) := h
  rw [List.mem_map] at h2
  obtain ⟨p, hp, hps⟩ := h2
  have h3 : p.2 ∈ sample config.substats
      (min config.settings.stats_count config.substats.length) r := by
    have h4 := List.mem_map_of_mem Prod.snd hp
    rwa [List.enum_eq_enumFrom, List.enumFrom_map_snd] at h4
  exact ⟨p.2, (sampleAux_subperm r _ 0 _).subset h3, rv p.1, hps.symm⟩

/-- C2: every stat produced by `generate_phantom_stats` comes from some
definition of the substat table via `rollStat`, and its `is_max` flag is
true iff the chosen value equals the exact maximum of that definition's
candidate values. -/
theorem C2_is_max_iff_max (config : Config) (r rv : Nat → Nat)
    (s : PhantomStat) (h : s ∈ generate_phantom_stats config r rv) :
    ∃ sc ∈ config.substats, ∃ j, s = rollStat sc j ∧
      (s.is_max = true ↔ s.value = pymax sc.values) := by
  obtain ⟨sc, hsc, j, hs⟩ := mem_generate_phantom_stats config r rv s h
  refine ⟨sc, hsc, j, hs, ?_⟩
  subst hs
  simp [rollStat]

theorem C2_witness :
    ∃ sc ∈ cfgA.substats, ∃ j, statA = rollStat sc j ∧
      (statA.is_max = true ↔ statA.value = pymax sc.values) :=
  C2_is_max_iff_max cfgA (fun _ => 0) (fun _ => 0) statA (by decide)

theorem one_le_parse_roll_count (t : List Char) : 1 ≤ parse_roll_count t := by
  unfold parse_roll_count
  split
  · exact Nat.le_refl 1
  · split
    · omega
    · exact Nat.le_refl 1

/-- C8: the roll-count parser first maps numeral words to digits and then
extracts the first positive integer from the text, defaulting to 1 when no
digit run is present; in particular "梭哈三次" parses to roll count 3, and
the parsed count is always at least 1. -/
theorem C8_parse_numeral_words :
    parse_roll_count "梭哈三次".data = 3 ∧
    (∀ t : List Char, firstDigitRun (applySubst t) = none →
      parse_roll_count t = 1) ∧
    (∀ t : List Char, 1 ≤ parse_roll_count t) := by
  refine ⟨by decide, ?_, one_le_parse_roll_count⟩
  intro t h
  unfold parse_roll_count
  rw [h]

theorem C8_witness :
    firstDigitRun (applySubst "梭哈".data) = none ∧
    parse_roll_count "梭哈".data = 1 :=
  ⟨by decide, C8_parse_numeral_words.2.1 "梭哈".data (by decide)⟩

/-- C10: the numeral-word substitution is applied token by token in the
dict's insertion order, so the single characters 一 and 十 are replaced
before the compound key 十一 is ever looked for: text containing "十一"
(and no other digits) becomes "101" and parses to roll count 101, not 11. -/
theorem C10_compound_numeral_concatenates :
    applySubst "梭哈十一次".data = "梭哈101次".data ∧
    parse_roll_count "梭哈十一次".data = 101 ∧
    parse_roll_count "梭哈十一次".data ≠ 11 := by
  refine ⟨by decide, by decide, by decide⟩

end TodayEcho

namespace TodayEcho

theorem rollLoop_ok_length (gen : Nat → RollRecord) (cardOk : Nat → Bool) :
    ∀ (n i : Nat), (rollLoop gen cardOk i n).ok = true →
      (rollLoop gen cardOk i n).records.length = n := by
  intro n
  induction n with
  | zero => intro i _; rfl
  | succ n ih =>
    intro i h
    by_cases hc : cardOk i = true
    · rw [rollLoop, if_pos hc] at h ⊢
      simpa using ih (i + 1) (by simpa using h)
    · rw [rollLoop, if_neg hc] at h
      simp at h

theorem runGachaRolls_saved (config : Config) (rt : DayRecords) (uid : String)
    (ud : List RollRecord) (today : String) (n : Nat) (r rv : Nat → Nat → Nat)
    (cardOk : Nat → Bool) (finalOk : Bool) (s : Store)
    (h : (runGachaRolls config rt uid ud today n r rv cardOk finalOk).saved
      = some s) :
    ∃ recs : List RollRecord, recs.length = n ∧
      s = [(today, dictSet rt uid (ud ++ recs))] := by
  by_cases hok : (rollLoop (fun i => generate_phantom_stats config (r i) (rv i))
      cardOk 0 n).ok = true
  · refine ⟨(rollLoop (fun i => generate_phantom_stats config (r i) (rv i))
      cardOk 0 n).records, rollLoop_ok_length _ _ n 0 hok, ?_⟩
    by_cases hf : finalOk = true
    · simp [runGachaRolls, hok, hf] at h
      exact h.symm
    · simp [runGachaRolls, hok, hf] at h
      exact h.symm
  · simp [runGachaRolls, hok] at h

theorem gacha_phantom_command_saved (config : Config) (store : Store)
    (user_id : String) (text : List Char) (today : String)
    (r rv : Nat → Nat → Nat) (cardOk : Nat → Bool) (finalOk : Bool) (s : Store)
    (h : (gacha_phantom_command config store user_id text today r rv cardOk
      finalOk).saved = some s) :
    ∃ recs : List RollRecord, recs.length = parse_roll_count text ∧
      s = [(today, dictSet (dictGetD store today []) user_id
          (dictGetD (dictGetD store today []) user_id [] ++ recs))] ∧
      (config.settings.white_list.contains user_id = true ∨
        (parse_roll_count text : Int)
          ≤ (config.settings.daily_limit).getD 20
            - ((dictGetD (dictGetD store today []) user_id []).length : Int)) := by
  simp only [gacha_phantom_command] at h
  split at h
  · simp at h
  · split at h
    · rename_i hw
      obtain ⟨recs, h1, h2⟩ := runGachaRolls_saved config
        (dictGetD store today []) user_id
        (dictGetD (dictGetD store today []) user_id []) today
        (parse_roll_count text) r rv cardOk finalOk s h
      exact ⟨recs, h1, h2, Or.inl hw⟩
    · split at h
      · simp at h
      · split at h
        · simp at h
        · rename_i hex hins
          obtain ⟨recs, h1, h2⟩ := runGachaRolls_saved config
            (dictGetD store today []) user_id
            (dictGetD (dictGetD store today []) user_id []) today
            (parse_roll_count text) r rv cardOk finalOk s h
          exact ⟨recs, h1, h2, Or.inr (by omega)⟩

theorem mem_dictSet {β : Type} (d : List (String × β)) (k : String) (v : β)
    (q : String × β) (hq : q ∈ dictSet d k v) :
    q = (k, v) ∨ (q ∈ d ∧ q.1 ≠ k) := by
  unfold dictSet at hq
  split at hq
  · rw [List.mem_map] at hq
    obtain ⟨p, hp, hpq⟩ := hq
    by_cases hk : (p.1 == k) = true
    · rw [if_pos hk] at hpq
      exact Or.inl hpq.symm
    · rw [if_neg hk] at hpq
      subst hpq
      exact Or.inr ⟨hp, by simpa using hk⟩
  · rename_i ha
    rw [List.mem_append] at hq
    cases hq with
    | inl h2 =>
      refine Or.inr ⟨h2, ?_⟩
      have h3 : (q.1 == k) = false := by
        have h4 := Bool.eq_false_iff.mpr ha
        rw [List.any_eq_false] at h4
        simpa using h4 q h2
      simpa using h3
    | inr h2 =>
      rw [List.mem_singleton] at h2
      exact Or.inl h2

theorem mem_dictSet_of_ne {β : Type} (d : List (String × β)) (k : String)
    (v : β) (q : String × β) (hq : q ∈ d) (hne : q.1 ≠ k) :
    q ∈ dictSet d k v := by
  unfold dictSet
  split
  · rw [List.mem_map]
    exact ⟨q, hq, by rw [if_neg (by simpa using hne)]⟩
  · exact List.mem_append_left _ hq

theorem dictGetD_cases {β : Type} (d : List (String × β)) (k : String)
    (v : β) :
    dictGetD d k v = v ∨ ∃ p, p ∈ d ∧ dictGetD d k v = p.2 := by
  unfold dictGetD
  cases hf : d.find? (fun p => p.1 == k) with
  | none => exact Or.inl rfl
  | some p => exact Or.inr ⟨p, List.mem_of_find?_eq_some hf, rfl⟩

theorem dictGetD_singleton_ne {β : Type} (today d : String) (x : β) (v : β)
    (hne : d ≠ today) : dictGetD [(today, x)] d v = v := by
  unfold dictGetD
  have h1 : (today == d) = false := by
    simpa using (Ne.symm hne)
  simp [List.find?, h1]

theorem dictGetD_singleton_self {β : Type} (today : String) (x : β) (v : β) :
    dictGetD [(today, x)] today v = x := by
  unfold dictGetD
  simp [List.find?]

/-- C3: for a non-whitelisted user whose requested roll count exceeds the
remaining quota (`dailyLimit - count of today's stored records`), the roll
command rejects — with the insufficient-quota reply reporting the remaining
count whenever any quota remains — and `save_records` is never called, so
the persisted ledger is unchanged. -/
theorem C3_insufficient_quota_rejected (config : Config) (store : Store)
    (user_id : String) (text : List Char) (today : String)
    (r rv : Nat → Nat → Nat) (cardOk : Nat → Bool) (finalOk : Bool)
    (hw : config.settings.white_list.contains user_id = false)
    (hg : (strIn "列表".data text || strIn "结果".data text) = false)
    (hq : (config.settings.daily_limit).getD 20
        - ((dictGetD (dictGetD store today []) user_id []).length : Int)
        < (parse_roll_count text : Int)) :
    (gacha_phantom_command config store user_id text today r rv cardOk
      finalOk).saved = none ∧
    ((gacha_phantom_command config store user_id text today r rv cardOk
        finalOk).outcome = RollOutcome.quotaExhausted ∨
      (gacha_phantom_command config store user_id text today r rv cardOk
        finalOk).outcome = RollOutcome.insufficient
          ((config.settings.daily_limit).getD 20
            - ((dictGetD (dictGetD store today []) user_id []).length : Int))) ∧
    (0 < (config.settings.daily_limit).getD 20
        - ((dictGetD (dictGetD store today []) user_id []).length : Int) →
      (gacha_phantom_command config store user_id text today r rv cardOk
        finalOk).outcome = RollOutcome.insufficient
          ((config.settings.daily_limit).getD 20
            - ((dictGetD (dictGetD store today []) user_id []).length : Int))) := by
  simp only [gacha_phantom_command]
  rw [if_neg (by simp [hg]), if_neg (by rw [hw]; simp)]
  by_cases hex : (config.settings.daily_limit).getD 20
      - ((dictGetD (dictGetD store today []) user_id []).length : Int) ≤ 0
  · rw [if_pos hex]
    refine ⟨rfl, Or.inl rfl, ?_⟩
    intro h0
    omega
  · rw [if_neg hex, if_pos (by omega)]
    exact ⟨rfl, Or.inr rfl, fun _ => rfl⟩

theorem C3_witness :
    cfgA.settings.white_list.contains "42" = false ∧
    parse_roll_count "梭哈21次".data = 21 ∧
    (gacha_phantom_command cfgA [] "42" "梭哈21次".data "2026-01-02"
      (fun _ _ => 0) (fun _ _ => 0) (fun _ => true) true).saved = none ∧
    (gacha_phantom_command cfgA [] "42" "梭哈21次".data "2026-01-02"
      (fun _ _ => 0) (fun _ _ => 0) (fun _ => true) true).outcome
      = RollOutcome.insufficient 20 := by
  have h := C3_insufficient_quota_rejected cfgA [] "42" "梭哈21次".data
    "2026-01-02" (fun _ _ => 0) (fun _ _ => 0) (fun _ => true) true
    (by decide) (by decide) (by decide)
  have h3 : (cfgA.settings.daily_limit).getD 20
      - ((dictGetD (dictGetD ([] : Store) "2026-01-02" []) "42" []).length : Int)
      = 20 := by decide
  have h2 := h.2.2 (by decide)
  rw [h3] at h2
  exact ⟨by decide, by decide, h.1, h2⟩

/-- C9: the ledger invariant — no non-whitelisted user has more than
`dailyLimit` records stored under any one day key — is preserved by every
document the roll command persists. -/
theorem C9_daily_limit_invariant (config : Config) (store : Store)
    (user_id : String) (text : List Char) (today : String)
    (r rv : Nat → Nat → Nat) (cardOk : Nat → Bool) (finalOk : Bool) (s : Store)
    (hinv : LedgerInv config store)
    (h : (gacha_phantom_command config store user_id text today r rv cardOk
      finalOk).saved = some s) :
    LedgerInv config s := by
  obtain ⟨recs, hlen, hs, hq⟩ := gacha_phantom_command_saved config store
    user_id text today r rv cardOk finalOk s h
  subst hs
  intro p hp q hq2 hwq
  rw [List.mem_singleton] at hp
  subst hp
  rcases mem_dictSet _ _ _ q hq2 with h3 | ⟨h3, hne⟩
  · subst h3
    simp only [] at hwq ⊢
    rcases hq with hwl | hcnt
    · rw [hwl] at hwq
      simp at hwq
    · simp only [List.length_append]
      omega
  · rcases dictGetD_cases store today ([] : DayRecords) with hrt | ⟨p2, hp2, hrt⟩
    · rw [hrt] at h3
      simp at h3
    · rw [hrt] at h3
      exact hinv p2 hp2 q h3 hwq

theorem C9_witness : LedgerInv cfgA [("2026-01-02", [("u", [recA])])] :=
  C9_daily_limit_invariant cfgA [] "u" "梭哈".data "2026-01-02"
    (fun _ _ => 0) (fun _ _ => 0) (fun _ => true) true
    [("2026-01-02", [("u", [recA])])] (by decide) (by decide)

end TodayEcho

namespace TodayEcho

theorem runGachaRolls_not_reject (config : Config) (rt : DayRecords)
    (uid : String) (ud : List RollRecord) (today : String) (n : Nat)
    (r rv : Nat → Nat → Nat) (cardOk : Nat → Bool) (finalOk : Bool) :
    (runGachaRolls config rt uid ud today n r rv cardOk finalOk).outcome
        ≠ RollOutcome.quotaExhausted ∧
    ∀ m : Int, (runGachaRolls config rt uid ud today n r rv cardOk
      finalOk).outcome ≠ RollOutcome.insufficient m := by
  simp only [runGachaRolls]
  split
  · split
    · exact ⟨by simp, fun m => by simp⟩
    · exact ⟨by simp, fun m => by simp⟩
  · exact ⟨by simp, fun m => by simp⟩

/-- C4 counterexample: for the whitelisted user `"w"`, the history command
computes a finite remaining quota (`dailyLimit - countToday`), which
moreover shrinks as rolls are performed — whereas the claim asserts the
computed remaining quota is unbounded in every operation. -/
theorem C4_counterexample :
    cfgA.settings.white_list.contains "w" = true ∧
    show_gacha_history cfgA storeA1 "w" "2026-01-01" true
      = HistOutcome.shown [recA] 19 ∧
    show_gacha_history cfgA storeA2 "w" "2026-01-01" true
      = HistOutcome.shown [recA, recA] 18 :=
  ⟨by decide, by decide, by decide⟩

/-- C4 (amended): in the roll command a whitelisted user's remaining quota
is unbounded — neither quota rejection can ever fire for them — but the
history command computes its displayed remaining as
`daily_limit (default 6) - countToday` with no whitelist exemption. -/
theorem C4_amended_whitelist (config : Config) (store : Store)
    (user_id : String) (text : List Char) (today : String)
    (r rv : Nat → Nat → Nat) (cardOk : Nat → Bool) (finalOk : Bool)
    (hw : config.settings.white_list.contains user_id = true) :
    ((gacha_phantom_command config store user_id text today r rv cardOk
        finalOk).outcome ≠ RollOutcome.quotaExhausted ∧
      ∀ m : Int, (gacha_phantom_command config store user_id text today r rv
        cardOk finalOk).outcome ≠ RollOutcome.insufficient m) ∧
    (dictGetD (dictGetD store today []) user_id [] ≠ [] →
      show_gacha_history config store user_id today true
        = HistOutcome.shown (dictGetD (dictGetD store today []) user_id [])
            ((config.settings.daily_limit).getD 6
              - ((dictGetD (dictGetD store today []) user_id []).length : Int))) := by
  constructor
  · simp only [gacha_phantom_command]
    split
    · exact ⟨by simp, fun m => by simp⟩
    · exact runGachaRolls_not_reject config _ user_id _ today _ r rv cardOk
        finalOk
  · intro hne
    cases hud : dictGetD (dictGetD store today []) user_id [] with
    | nil => exact absurd hud hne
    | cons a as => simp [show_gacha_history, hud]

theorem C4_amended_witness :
    (gacha_phantom_command cfgA storeA1 "w" "梭哈".data "2026-01-01"
        (fun _ _ => 0) (fun _ _ => 0) (fun _ => true) true).outcome
      ≠ RollOutcome.quotaExhausted ∧
    (gacha_phantom_command cfgA storeA1 "w" "梭哈".data "2026-01-01"
        (fun _ _ => 0) (fun _ _ => 0) (fun _ => true) true).outcome
      ≠ RollOutcome.insufficient 19 ∧
    show_gacha_history cfgA storeA1 "w" "2026-01-01" true
      = HistOutcome.shown [recA] 19 := by
  have h := C4_amended_whitelist cfgA storeA1 "w" "梭哈".data "2026-01-01"
    (fun _ _ => 0) (fun _ _ => 0) (fun _ => true) true (by decide)
  have h2 := h.2 (by decide)
  have h3 : HistOutcome.shown (dictGetD (dictGetD storeA1 "2026-01-01" []) "w" [])
      ((cfgA.settings.daily_limit).getD 6
        - ((dictGetD (dictGetD storeA1 "2026-01-01" []) "w" []).length : Int))
      = HistOutcome.shown [recA] 19 := by decide
  rw [h3] at h2
  exact ⟨h.1.1, h.1.2 19, h2⟩

/-- C5 counterexample: a roll performed on 2026-01-02 by a user whose
ledger file holds an entry under 2026-01-01 persists a document from which
the 2026-01-01 entry is gone — the claim that entries stored under other
dates are left unchanged in the persisted document is false. -/
theorem C5_counterexample :
    (gacha_phantom_command cfgA storeOld "u" "梭哈".data "2026-01-02"
        (fun _ _ => 0) (fun _ _ => 0) (fun _ => true) true).saved
      = some [("2026-01-02", [("u", [recA])])] ∧
    dictGetD storeOld "2026-01-01" ([] : DayRecords) = [("u", [recA])] ∧
    dictGetD [("2026-01-02", [("u", [recA])])] "2026-01-01" ([] : DayRecords)
      = [] :=
  ⟨by decide, by decide, by decide⟩

/-- C5 (amended): a successful roll command persists a document that holds
ONLY today's date key: today's entry for the user is the old list with the
new batch appended, other users' entries under today are preserved, and
entries stored under every other date are discarded from the persisted
document. -/
theorem C5_amended_persists_only_today (config : Config) (store : Store)
    (user_id : String) (text : List Char) (today : String)
    (r rv : Nat → Nat → Nat) (cardOk : Nat → Bool) (finalOk : Bool) (s : Store)
    (h : (gacha_phantom_command config store user_id text today r rv cardOk
      finalOk).saved = some s) :
    (∃ recs : List RollRecord, recs.length = parse_roll_count text ∧
      s = [(today, dictSet (dictGetD store today []) user_id
          (dictGetD (dictGetD store today []) user_id [] ++ recs))]) ∧
    (∀ q ∈ dictGetD store today ([] : DayRecords), q.1 ≠ user_id →
      q ∈ dictGetD s today ([] : DayRecords)) ∧
    (∀ d : String, d ≠ today → dictGetD s d ([] : DayRecords) = []) := by
  obtain ⟨recs, h1, h2, h3⟩ := gacha_phantom_command_saved config store
    user_id text today r rv cardOk finalOk s h
  subst h2
  refine ⟨⟨recs, h1, rfl⟩, ?_, ?_⟩
  · intro q hq hne
    rw [dictGetD_singleton_self]
    exact mem_dictSet_of_ne _ _ _ q hq hne
  · intro d hd
    exact dictGetD_singleton_ne today d _ _ hd

theorem C5_amended_witness :
    dictGetD [("2026-01-02", [("u", [recA])])] "2026-01-01"
      ([] : DayRecords) = [] :=
  (C5_amended_persists_only_today cfgA storeOld "u" "梭哈".data "2026-01-02"
    (fun _ _ => 0) (fun _ _ => 0) (fun _ => true) true
    [("2026-01-02", [("u", [recA])])] (by decide)).2.2 "2026-01-01"
    (by decide)

theorem rollLoop_allOk (gen : Nat → RollRecord) (cardOk : Nat → Bool)
    (hc : ∀ i, cardOk i = true) :
    ∀ (n i : Nat), rollLoop gen cardOk i n
      = ⟨genList gen i n, interleaveTrace i n, true⟩ := by
  intro n
  induction n with
  | zero => intro i; rfl
  | succ n ih =>
    intro i
    rw [rollLoop, if_pos (hc i), ih (i + 1)]
    rfl

theorem genList_length (gen : Nat → RollRecord) :
    ∀ (n i : Nat), (genList gen i n).length = n := by
  intro n
  induction n with
  | zero => intro i; rfl
  | succ n ih => intro i; rw [genList, List.length_cons, ih (i + 1)]

theorem runGachaRolls_allOk (config : Config) (rt : DayRecords)
    (uid : String) (ud : List RollRecord) (today : String) (n : Nat)
    (r rv : Nat → Nat → Nat) (finalOk : Bool) :
    runGachaRolls config rt uid ud today n r rv (fun _ => true) finalOk
      = ⟨if finalOk then RollOutcome.success
            (genList (fun i => generate_phantom_stats config (r i) (rv i)) 0 n)
          else RollOutcome.errorLogged,
         some [(today, dictSet rt uid (ud ++
            genList (fun i => generate_phantom_stats config (r i) (rv i)) 0 n))],
         interleaveTrace 0 n
           ++ Eff.save :: (if finalOk then [Eff.send] else [])⟩ := by
  have hloop := rollLoop_allOk
    (fun i => generate_phantom_stats config (r i) (rv i)) (fun _ => true)
    (fun _ => rfl) n 0
  simp only [runGachaRolls, hloop]
  cases finalOk with
  | false => simp
  | true => simp

/-- C6 counterexample: per-card rendering happens inside the generation
loop before any persist — here the first roll's stats are generated
(`Eff.gen 0` in the trace), its card draw fails, and nothing is persisted,
although the identical invocation with rendering succeeding does persist.
So a rendering failure does prevent successfully generated records of the
command from being persisted, contradicting the claim. -/
theorem C6_counterexample :
    (gacha_phantom_command cfgA [] "u" "梭哈".data "2026-01-02"
        (fun _ _ => 0) (fun _ _ => 0) (fun _ => false) true).saved = none ∧
    (gacha_phantom_command cfgA [] "u" "梭哈".data "2026-01-02"
        (fun _ _ => 0) (fun _ _ => 0) (fun _ => false) true).trace
      = [Eff.gen 0, Eff.renderCard 0] ∧
    (gacha_phantom_command cfgA [] "u" "梭哈".data "2026-01-02"
        (fun _ _ => 0) (fun _ _ => 0) (fun _ => true) true).saved
      = some [("2026-01-02", [("u", [recA])])] :=
  ⟨by decide, by decide, by decide⟩

/-- C6 (amended): when quota passes and every per-roll card draw succeeds,
the command generates exactly `count` rolls with each roll's card drawn
inside the loop (`gen i` and `renderCard i` strictly interleaved), then
appends all records in one batch and persists, and only afterwards
composes and sends; a failure in that final compose-and-send step
(`finalOk = false`) occurs after the persist, so the batch stays saved. -/
theorem C6_amended_order (config : Config) (store : Store) (user_id : String)
    (text : List Char) (today : String) (r rv : Nat → Nat → Nat)
    (finalOk : Bool)
    (hg : (strIn "列表".data text || strIn "结果".data text) = false)
    (hq : config.settings.white_list.contains user_id = true ∨
      (parse_roll_count text : Int)
        ≤ (config.settings.daily_limit).getD 20
          - ((dictGetD (dictGetD store today []) user_id []).length : Int)) :
    gacha_phantom_command config store user_id text today r rv
        (fun _ => true) finalOk
      = ⟨if finalOk then RollOutcome.success
            (genList (fun i => generate_phantom_stats config (r i) (rv i)) 0
              (parse_roll_count text))
          else RollOutcome.errorLogged,
         some [(today, dictSet (dictGetD store today []) user_id
            (dictGetD (dictGetD store today []) user_id []
              ++ genList (fun i => generate_phantom_stats config (r i) (rv i))
                  0 (parse_roll_count text)))],
         interleaveTrace 0 (parse_roll_count text)
           ++ Eff.save :: (if finalOk then [Eff.send] else [])⟩ ∧
    (genList (fun i => generate_phantom_stats config (r i) (rv i)) 0
        (parse_roll_count text)).length = parse_roll_count text := by
  refine ⟨?_, genList_length _ _ 0⟩
  simp only [gacha_phantom_command]
  rw [if_neg (by simp [hg])]
  by_cases hw : config.settings.white_list.contains user_id = true
  · rw [if_pos hw, runGachaRolls_allOk]
  · rcases hq with hq1 | hq2
    · exact absurd hq1 hw
    · have hp1 := one_le_parse_roll_count text
      rw [if_neg hw,
        if_neg (show ¬((config.settings.daily_limit).getD 20
          - (((dictGetD (dictGetD store today []) user_id []).length : Int))
          ≤ 0) from by omega),
        if_neg (show ¬((parse_roll_count text : Int)
          > (config.settings.daily_limit).getD 20
            - (((dictGetD (dictGetD store today []) user_id []).length : Int)))
          from by omega),
        runGachaRolls_allOk]

theorem C6_amended_witness :
    gacha_phantom_command cfgA [] "u" "梭哈".data "2026-01-02"
        (fun _ _ => 0) (fun _ _ => 0) (fun _ => true) true
      = ⟨RollOutcome.success [recA],
         some [("2026-01-02", [("u", [recA])])],
         [Eff.gen 0, Eff.renderCard 0, Eff.save, Eff.send]⟩ := by
  have h := C6_amended_order cfgA [] "u" "梭哈".data "2026-01-02"
    (fun _ _ => 0) (fun _ _ => 0) true (by decide) (Or.inr (by decide))
  rw [h.1]
  decide

/-- C7: the persist step is all-or-nothing — every invocation of the roll
command either never calls `save_records` (`saved = none`: rejection,
ignore, or an exception caught and logged at the handler boundary before
the save), or persists in one write the full document containing the whole
batch of exactly `count = parse_roll_count text` new records appended to
the user's today entry. -/
theorem C7_no_partial_ledger_write (config : Config) (store : Store)
    (user_id : String) (text : List Char) (today : String)
    (r rv : Nat → Nat → Nat) (cardOk : Nat → Bool) (finalOk : Bool) :
    (gacha_phantom_command config store user_id text today r rv cardOk
      finalOk).saved = none ∨
    ∃ recs : List RollRecord, recs.length = parse_roll_count text ∧
      (gacha_phantom_command config store user_id text today r rv cardOk
        finalOk).saved
        = some [(today, dictSet (dictGetD store today []) user_id
            (dictGetD (dictGetD store today []) user_id [] ++ recs))] := by
  cases hsv : (gacha_phantom_command config store user_id text today r rv
      cardOk finalOk).saved with
  | none => exact Or.inl rfl
  | some s =>
    obtain ⟨recs, h1, h2, h3⟩ := gacha_phantom_command_saved config store
      user_id text today r rv cardOk finalOk s hsv
    exact Or.inr ⟨recs, h1, by rw [h2]⟩

end TodayEcho
